import Mathlib

/-!
Verification of the text-transfer-tracker server core.

Text is modelled as `List Char` (an exact model of a JS string as a
sequence of characters).  The embedded definitions mirror, line for line,
`src/shared/schema.ts` (`createCommunitySchema`), `src/server/routes.ts`
(`registerRoutes`, `generateCommunityFile`, `sendToDiscordWebhook`),
`src/server/storage.ts` (`MemStorage`) and the webhook-field schema variant
(`src/unnamed/part_000`).
-/

namespace TextTransfer

/-- A JS string, modelled as its sequence of characters. -/
abbrev Str := List Char

/-- `leadsWith p s` holds when `s` starts with the pattern `p`
(the character-list form of `String.startsWith`). -/
def leadsWith : Str → Str → Bool
  | [], _ => true
  | _ :: _, [] => false
  | p :: ps, c :: cs => p = c && leadsWith ps cs

/-- `containsSub p s` holds when `p` occurs as a contiguous substring of `s`
(the model of JS `String.prototype.includes`). -/
def containsSub (p : Str) : Str → Bool
  | [] => leadsWith p []
  | c :: cs => leadsWith p (c :: cs) || containsSub p cs

/-- Split a character sequence at every `'\n'`, the model of JS
`s.split('\n')`: `"".split` gives `[""]`, a trailing newline yields a
trailing empty piece. -/
def splitNl : Str → List Str
  | [] => [[]]
  | c :: rest =>
    if c = '\n' then [] :: splitNl rest
    else
      match splitNl rest with
      | [] => [[c]]
      | l :: ls => (c :: l) :: ls

/-- The characters JS `String.prototype.trim` removes: the ECMAScript
WhiteSpace and LineTerminator sets. -/
def isJsSpace (c : Char) : Bool :=
  c = ' ' || c = '\t' || c = '\n' || c = '\r' || c = '\u000B' || c = '\u000C' ||
  c = '\u00A0' || c = '\u1680' || (('\u2000') ≤ c && c ≤ ('\u200A')) ||
  c = '\u2028' || c = '\u2029' || c = '\u202F' || c = '\u205F' ||
  c = '\u3000' || c = '\uFEFF'

/-- Model of the JS filter predicate `line => line.trim()` in
`generateCommunityFile`: the trimmed line is a non-empty (truthy) string,
i.e. the line has at least one non-whitespace character. -/
def trimNonEmpty (l : Str) : Bool := l.any (fun c => !isJsSpace c)

/-- One decimal digit as a character. -/
def digitChar : Nat → Char
  | 0 => '0' | 1 => '1' | 2 => '2' | 3 => '3' | 4 => '4'
  | 5 => '5' | 6 => '6' | 7 => '7' | 8 => '8' | _ => '9'

/-- Fuel-driven decimal rendering (least-significant digit first into the
accumulator). -/
def natToStrAux : Nat → Nat → Str → Str
  | 0, _, acc => acc
  | fuel + 1, n, acc =>
    if n < 10 then digitChar n :: acc
    else natToStrAux fuel (n / 10) (digitChar (n % 10) :: acc)

/-- Decimal rendering of a natural number, the model of JS number → string
interpolation `${n}`. -/
def natToStr (n : Nat) : Str := natToStrAux (n + 1) n []

/-- A line "of the form `N. <text>`": a non-empty run of decimal digits
followed by `". "`. -/
def isNumberedLine (l : Str) : Bool :=
  !(l.takeWhile Char.isDigit).isEmpty
    && leadsWith (('.') :: (' ') :: []) (l.drop (l.takeWhile Char.isDigit).length)

/-- Re-parse a line of the form `N. <text>`, returning `<text>`;
`none` for any other line. -/
def parseNumberedLine (l : Str) : Option Str :=
  if !(l.takeWhile Char.isDigit).isEmpty
      && leadsWith (('.') :: (' ') :: []) (l.drop (l.takeWhile Char.isDigit).length) then
    some ((l.drop (l.takeWhile Char.isDigit).length).drop 2)
  else none

/-- The metadata record handed to `generateCommunityFile`
(`routes.ts` lines 85–90). -/
structure FormData where
  rename : Str
  robuxFund : Str
  communitiesMember : Str
  ownerUsername : Str
deriving DecidableEq

/-- The numbered listing block built by the `lines.forEach` loop of
`generateCommunityFile` (`routes.ts` lines 101–103), generalised over the
starting number: `numberedFrom 1 lines` appends `"${index+1}. ${line}\n"`
for each retained line. -/
def numberedFrom (i : Nat) : List Str → Str
  | [] => []
  | l :: ls => natToStr i ++ ('.') :: (' ') :: l ++ ('\n') :: numberedFrom (i + 1) ls

/-- The numbered lines themselves (no trailing newline), as a list:
the expected shape of the listing block when split back into lines. -/
def numberedEntriesFrom (i : Nat) : List Str → List Str
  | [] => []
  | l :: ls => (natToStr i ++ ('.') :: (' ') :: l) :: numberedEntriesFrom (i + 1) ls

/-- `generateCommunityFile` (`routes.ts` lines 83–109).  `now` stands for
`new Date().toISOString()`; everything else is a verbatim transcription of
the template-literal concatenation. -/
def generateCommunityFile (now : Str) (originalContent : Str) (formData : FormData) : Str :=
  let lines := (splitNl originalContent).filter trimNonEmpty
  ("# Community Configuration Generated on ").data ++ now ++ ('\n') :: []
    ++ ("# Rename: ").data ++ formData.rename ++ ('\n') :: []
    ++ ("# Robux Fund: ").data ++ formData.robuxFund ++ ('\n') :: []
    ++ ("# Communities Member: ").data ++ formData.communitiesMember ++ ('\n') :: []
    ++ ("# Owner Username: ").data ++ formData.ownerUsername ++ ('\n') :: ('\n') :: []
    ++ ("# Original Communities Data:").data ++ ('\n') :: []
    ++ numberedFrom 1 lines
    ++ ('\n') :: ("# Processing Complete").data ++ ('\n') :: []
    ++ ("# Total Communities: ").data ++ natToStr lines.length ++ ('\n') :: []

/-! ## Validation layer (`src/shared/schema.ts`, `createCommunitySchema`) -/

/-- One entry of a zod `ZodError`'s `errors` array: the path (a single field
name here) and the message. -/
structure FieldIssue where
  path : Str
  message : Str
deriving DecidableEq

/-- The incoming JSON body of `POST /api/communities`: each field either
absent (`none`) or a string. -/
structure Body where
  rename : Option Str
  robuxFund : Option Str
  communitiesMember : Option Str
  ownerUsername : Option Str
  textContent : Option Str
deriving DecidableEq

/-- The issues zod's `z.string().min(1, msg)` produces for one required
field named `name`: `"Required"` when the key is absent, the custom
message when the string is empty, nothing otherwise. -/
def checkReq (name msg : Str) : Option Str → List FieldIssue
  | none => [⟨name, ("Required").data⟩]
  | some s => if s = [] then [⟨name, msg⟩] else []

/-- All issues `createCommunitySchema.parse` collects, in field
declaration order (`schema.ts` lines 32–38). -/
def reqChecks (b : Body) : List FieldIssue :=
  checkReq (("rename").data) (("Rename is required").data) b.rename
    ++ checkReq (("robuxFund").data) (("Robux Fund is required").data) b.robuxFund
    ++ checkReq (("communitiesMember").data) (("Communities Member is required").data) b.communitiesMember
    ++ checkReq (("ownerUsername").data) (("Owner Username is required").data) b.ownerUsername
    ++ checkReq (("textContent").data) (("Communities text content is required").data) b.textContent

/-- The parsed, validated body (`CreateCommunityRequest` in `schema.ts`). -/
structure CreateCommunityRequest where
  rename : Str
  robuxFund : Str
  communitiesMember : Str
  ownerUsername : Str
  textContent : Str
deriving DecidableEq

/-- `createCommunitySchema.parse`: succeeds exactly when no field issue
arises, otherwise throws a `ZodError` carrying all collected issues. -/
def parseCreateCommunity (b : Body) : Except (List FieldIssue) CreateCommunityRequest :=
  let es := reqChecks b
  match b.rename, b.robuxFund, b.communitiesMember, b.ownerUsername, b.textContent with
  | some r, some rf, some cm, some ou, some tc =>
    if es.isEmpty then Except.ok ⟨r, rf, cm, ou, tc⟩ else Except.error es
  | _, _, _, _, _ => Except.error es

/-! ## Persistence gateway (`src/server/storage.ts`, `MemStorage`) -/

/-- `InsertUser` (`schema.ts`). -/
structure InsertUser where
  username : Str
  password : Str
deriving DecidableEq

/-- `User` (`schema.ts`). -/
structure User where
  id : Nat
  username : Str
  password : Str
deriving DecidableEq

/-- `InsertCommunity`: a community row before the server assigns
`id` and `createdAt`. -/
structure InsertCommunity where
  rename : Str
  robuxFund : Str
  communitiesMember : Str
  ownerUsername : Str
  originalContent : Str
  generatedContent : Str
deriving DecidableEq

/-- `Community` (`schema.ts`): the persisted submission record.
`createdAt` is the timestamp string of the `new Date()` taken at creation. -/
structure Community where
  id : Nat
  rename : Str
  robuxFund : Str
  communitiesMember : Str
  ownerUsername : Str
  originalContent : Str
  generatedContent : Str
  createdAt : Str
deriving DecidableEq

/-- A JS `Map` from numbers to `α`, modelled as its entry list in insertion
order (the order `Map.prototype.values` iterates in). -/
abbrev JsMap (α : Type) := List (Nat × α)

/-- JS `Map.prototype.set`: overwrite in place when the key exists,
append otherwise. -/
def mapSet {α : Type} (m : JsMap α) (k : Nat) (v : α) : JsMap α :=
  if m.any (fun p => p.1 = k) then
    m.map (fun p => if p.1 = k then (k, v) else p)
  else m ++ [(k, v)]

/-- The `MemStorage` state (`storage.ts` lines 12–23). -/
structure MemStorage where
  users : JsMap User
  communities : JsMap Community
  currentUserId : Nat
  currentCommunityId : Nat
deriving DecidableEq

/-- The `MemStorage` constructor: empty maps, both counters at 1. -/
def initialStorage : MemStorage := ⟨[], [], 1, 1⟩

/-- `MemStorage.createUser` (`storage.ts` lines 35–40). -/
def createUser (s : MemStorage) (iu : InsertUser) : User × MemStorage :=
  let id := s.currentUserId
  let user : User := ⟨id, iu.username, iu.password⟩
  (user, { s with users := mapSet s.users id user, currentUserId := id + 1 })

/-- `MemStorage.createCommunity` (`storage.ts` lines 42–51); `now` is the
`new Date()` taken inside the method. -/
def createCommunity (s : MemStorage) (ic : InsertCommunity) (now : Str) : Community × MemStorage :=
  let id := s.currentCommunityId
  let community : Community :=
    ⟨id, ic.rename, ic.robuxFund, ic.communitiesMember, ic.ownerUsername,
      ic.originalContent, ic.generatedContent, now⟩
  (community,
    { s with communities := mapSet s.communities id community, currentCommunityId := id + 1 })

/-- `MemStorage.getCommunity` (`storage.ts` lines 53–55). -/
def getCommunity (s : MemStorage) (id : Nat) : Option Community :=
  (s.communities.find? (fun p => p.1 = id)).map Prod.snd

/-- `MemStorage.getAllCommunities` (`storage.ts` lines 57–59):
`Array.from(this.communities.values())`, i.e. the values in insertion
order. -/
def getAllCommunities (s : MemStorage) : List Community :=
  s.communities.map Prod.snd

/-- A sequence of `createCommunity` calls, threading the storage state and
returning the created records in call order. -/
def createCommunities (s : MemStorage) : List (InsertCommunity × Str) → List Community × MemStorage
  | [] => ([], s)
  | (ic, now) :: rest =>
    ((createCommunity s ic now).1 :: (createCommunities (createCommunity s ic now).2 rest).1,
      (createCommunities (createCommunity s ic now).2 rest).2)

/-- A sequence of `createUser` calls, threading the storage state. -/
def createUsers (s : MemStorage) : List InsertUser → List User × MemStorage
  | [] => ([], s)
  | iu :: rest =>
    ((createUser s iu).1 :: (createUsers (createUser s iu).2 rest).1,
      (createUsers (createUser s iu).2 rest).2)

/-- Well-formedness of a `MemStorage` state: every stored community key is
below the running counter and equals its record's `id` (true of the fresh
store and preserved by every create). -/
def storeWf (s : MemStorage) : Prop :=
  ∀ p ∈ s.communities, p.1 < s.currentCommunityId ∧ p.1 = p.2.id

/-! ## Request handler (`src/server/routes.ts`, `registerRoutes`) and the
outbound notifier (`sendToDiscordWebhook`) -/

/-- Process configuration: `process.env.DISCORD_WEBHOOK_URL`. -/
structure Env where
  webhookUrl : Option Str
deriving DecidableEq

/-- Outcome of the single outbound `fetch` to the Discord webhook:
success (`response.ok`), an HTTP-level failure carrying the status code,
status text and response body text, or a transport error (the rejected
`fetch` promise's `Error`, carrying its message). -/
inductive WebhookResult where
  | ok : WebhookResult
  | httpError (status : Nat) (statusText : Str) (errorText : Str) : WebhookResult
  | transportError (msg : Str) : WebhookResult
deriving DecidableEq

/-- `sendToDiscordWebhook` (`routes.ts` lines 111–144), as a function of
the fetch outcome: on a non-ok response the inner `throw` builds
`"Discord API error: <status> <statusText> - <errorText>"`, the `catch`
rethrows it wrapped as `"Failed to send to Discord: <message>"`; a
transport error is wrapped the same way.  The result is the message of the
error the function throws, if any. -/
def sendToDiscordWebhook (r : WebhookResult) : Except Str Unit :=
  match r with
  | WebhookResult.ok => Except.ok ()
  | WebhookResult.httpError st stx et =>
    Except.error (("Failed to send to Discord: ").data
      ++ ("Discord API error: ").data ++ natToStr st ++ (' ') :: stx
      ++ (" - ").data ++ et)
  | WebhookResult.transportError m =>
    Except.error (("Failed to send to Discord: ").data ++ m)

/-- The JSON body + status the handler sends (`routes.ts` lines 42–61):
`200 {success:true, message, communityId}`,
`400 {success:false, message:"Validation error", errors}`, or
`500 {success:false, message}`. -/
structure HttpResponse where
  status : Nat
  success : Bool
  message : Str
  errors : List FieldIssue
  communityId : Option Nat
deriving DecidableEq

/-- What one `POST /api/communities` request produced: the response, the
storage state afterwards, and whether the outbound webhook fetch was
issued. -/
structure HandlerResult where
  response : HttpResponse
  store : MemStorage
  webhookCalled : Bool
deriving DecidableEq

/-- The `POST /api/communities` handler (`routes.ts` lines 9–63).
`env` is the process environment, `wres` the outcome the single outbound
fetch would have, `now` the timestamp of the request, `s` the storage
state, `b` the request body.  Mirrors the handler's control flow: parse
(a `ZodError` is answered with 400), generate, read the env var (missing →
throw, caught as 500 with the `Error`'s message), send to the webhook
(failure → 500 with the `Error`'s message), persist, respond 200. -/
def postCommunities (env : Env) (wres : WebhookResult) (now : Str)
    (s : MemStorage) (b : Body) : HandlerResult :=
  match parseCreateCommunity b with
  | Except.error issues =>
    ⟨⟨400, false, ("Validation error").data, issues, none⟩, s, false⟩
  | Except.ok v =>
    let generatedContent :=
      generateCommunityFile now v.textContent ⟨v.rename, v.robuxFund, v.communitiesMember, v.ownerUsername⟩
    match env.webhookUrl with
    | none =>
      ⟨⟨500, false, ("Discord webhook URL not configured").data, [], none⟩, s, false⟩
    | some _ =>
      match sendToDiscordWebhook wres with
      | Except.error msg => ⟨⟨500, false, msg, [], none⟩, s, true⟩
      | Except.ok _ =>
        let (c, s') := createCommunity s
          ⟨v.rename, v.robuxFund, v.communitiesMember, v.ownerUsername, v.textContent, generatedContent⟩ now
        ⟨⟨200, true, ("Community file generated and sent to Discord successfully!").data, [], some c.id⟩,
          s', true⟩

/-! ## Webhook-field schema variant (`src/unnamed/part_000`,
`createCommunitySchema` lines 34–45) -/

/-- The incoming body for the webhook-field variant: the five required
string fields, the `discordWebhook` URL field, and the file fields. -/
structure BodyW where
  rename : Option Str
  robloxFriend : Option Str
  communitiesMember : Option Str
  ownerUsername : Option Str
  discordWebhook : Option Str
  fileContent : Option Str
  fileName : Option Str
deriving DecidableEq

/-- Modelled from the spec: zod's `z.string().url()` base check — the
library's notion of "a syntactically valid URL" (zod itself is a
third-party library, not part of this repository's sources).  Modelled as:
an `http://` or `https://` scheme followed by at least one character. -/
def isWebUrl (u : Str) : Bool :=
  (leadsWith (("https://").data) u && decide (8 < u.length))
    || (leadsWith (("http://").data) u && decide (7 < u.length))

/-- The substring the `refine` on `discordWebhook` tests for
(`part_000` line 40): `url.includes('discord.com/api/webhooks')`. -/
def discordPathSeg : Str := ("discord.com/api/webhooks").data

/-- The issues zod produces for the `discordWebhook` field
(`part_000` lines 39–42): `"Required"` when absent, `"Invalid webhook
URL"` when not a URL, the refine message when the URL does not contain
the substring `discord.com/api/webhooks`, nothing otherwise. -/
def discordWebhookIssues : Option Str → List FieldIssue
  | none => [⟨("discordWebhook").data, ("Required").data⟩]
  | some u =>
    if !isWebUrl u then [⟨("discordWebhook").data, ("Invalid webhook URL").data⟩]
    else if !containsSub discordPathSeg u then
      [⟨("discordWebhook").data, ("Must be a valid Discord webhook URL").data⟩]
    else []

/-- All issues the variant `createCommunitySchema.parse` collects, in
field declaration order (`part_000` lines 34–45). -/
def reqChecksW (b : BodyW) : List FieldIssue :=
  checkReq (("rename").data) (("Rename is required").data) b.rename
    ++ checkReq (("robloxFriend").data) (("Roblox Friend is required").data) b.robloxFriend
    ++ checkReq (("communitiesMember").data) (("Communities Member is required").data) b.communitiesMember
    ++ checkReq (("ownerUsername").data) (("Owner Username is required").data) b.ownerUsername
    ++ discordWebhookIssues b.discordWebhook
    ++ checkReq (("fileContent").data) (("File content is required").data) b.fileContent
    ++ checkReq (("fileName").data) (("File name is required").data) b.fileName

/-- The parsed, validated body of the webhook-field variant. -/
structure CreateCommunityRequestW where
  rename : Str
  robloxFriend : Str
  communitiesMember : Str
  ownerUsername : Str
  discordWebhook : Str
  fileContent : Str
  fileName : Str
deriving DecidableEq

/-- The variant `createCommunitySchema.parse`: succeeds exactly when no
field issue arises, otherwise throws a `ZodError` with all issues. -/
def parseCreateCommunityW (b : BodyW) : Except (List FieldIssue) CreateCommunityRequestW :=
  let es := reqChecksW b
  match b.rename, b.robloxFriend, b.communitiesMember, b.ownerUsername,
      b.discordWebhook, b.fileContent, b.fileName with
  | some r, some rf, some cm, some ou, some dw, some fc, some fn =>
    if es.isEmpty then Except.ok ⟨r, rf, cm, ou, dw, fc, fn⟩ else Except.error es
  | _, _, _, _, _, _, _ => Except.error es

/-- Modelled from the spec: "a syntactically valid URL whose host path
identifies the expected webhook-service namespace
(`discord.com/api/webhooks`)" — the URL's authority-plus-path begins with
`discord.com/api/webhooks` under an `http(s)` scheme.  This is the spec's
acceptance condition, stated independently of the code's check. -/
def hostPathInDiscordNamespace (u : Str) : Bool :=
  leadsWith (("https://").data ++ discordPathSeg) u
    || leadsWith (("http://").data ++ discordPathSeg) u

/-- Join a list of lines, a `'\n'` after every element (the shape of the
generated file: every emitted piece ends in a newline). -/
def joinLines : List Str → Str
  | [] => []
  | l :: ls => l ++ ('\n') :: joinLines ls


/-- The line list of the generated file: header block, numbered listing,
summary block (the final `[]` below `joinLines` accounts for the file's
trailing newline). -/
def fileLines (now : Str) (originalContent : Str) (formData : FormData) : List Str :=
  (("# Community Configuration Generated on ").data ++ now)
    :: (("# Rename: ").data ++ formData.rename)
    :: (("# Robux Fund: ").data ++ formData.robuxFund)
    :: (("# Communities Member: ").data ++ formData.communitiesMember)
    :: (("# Owner Username: ").data ++ formData.ownerUsername)
    :: []
    :: ("# Original Communities Data:").data
    :: (numberedEntriesFrom 1 ((splitNl originalContent).filter trimNonEmpty)
        ++ [[], ("# Processing Complete").data,
            ("# Total Communities: ").data
              ++ natToStr ((splitNl originalContent).filter trimNonEmpty).length])


/-- Everything of the generated file after the first (timestamp) header
line: identical across invocations with the same input and metadata. -/
def afterHeader (originalContent : Str) (formData : FormData) : Str :=
  ("# Rename: ").data ++ formData.rename ++ ('\n') :: []
    ++ ("# Robux Fund: ").data ++ formData.robuxFund ++ ('\n') :: []
    ++ ("# Communities Member: ").data ++ formData.communitiesMember ++ ('\n') :: []
    ++ ("# Owner Username: ").data ++ formData.ownerUsername ++ ('\n') :: ('\n') :: []
    ++ ("# Original Communities Data:").data ++ ('\n') :: []
    ++ numberedFrom 1 ((splitNl originalContent).filter trimNonEmpty)
    ++ ('\n') :: ("# Processing Complete").data ++ ('\n') :: []
    ++ ("# Total Communities: ").data
    ++ natToStr ((splitNl originalContent).filter trimNonEmpty).length ++ ('\n') :: []


/-- The five required fields of `createCommunitySchema`
(`schema.ts` lines 32–38). -/
inductive ReqField where
  | rename
  | robuxFund
  | communitiesMember
  | ownerUsername
  | textContent
deriving DecidableEq

/-- The JSON key of a required field. -/
def fieldName : ReqField → Str
  | ReqField.rename => ("rename").data
  | ReqField.robuxFund => ("robuxFund").data
  | ReqField.communitiesMember => ("communitiesMember").data
  | ReqField.ownerUsername => ("ownerUsername").data
  | ReqField.textContent => ("textContent").data

/-- Project a required field out of a request body. -/
def getField (b : Body) : ReqField → Option Str
  | ReqField.rename => b.rename
  | ReqField.robuxFund => b.robuxFund
  | ReqField.communitiesMember => b.communitiesMember
  | ReqField.ownerUsername => b.ownerUsername
  | ReqField.textContent => b.textContent

/-- A field value that `z.string().min(1)` rejects: the key is absent or
the string is empty. -/
def absentOrEmpty (v : Option Str) : Prop := v = none ∨ v = some []

/-- A concrete configured environment, for concrete runs. -/
def cexEnv : Env := ⟨some (("https://discord.com/api/webhooks/1").data)⟩

/-- A concrete body that passes validation, for concrete runs. -/
def validBody : Body :=
  ⟨some ("Alpha").data, some ("100").data, some ("m1").data, some ("o1").data,
    some ("line one\n\nline two").data⟩

/-- A concrete body whose `rename` metadata embeds a newline and a fake
numbered line. -/
def injBody : Body :=
  ⟨some ("a\n1. fake").data, some ("100").data, some ("m1").data, some ("o1").data,
    some ("x").data⟩

/-! ## Lemmas about the string machinery -/

theorem splitNl_ne_nil (s : Str) : splitNl s ≠ [] := by
  induction s with
  | nil => simp [splitNl]
  | cons c rest ih =>
    simp only [splitNl]
    by_cases h : c = '\n'
    · simp [h]
    · simp only [h, reduceIte]
      cases hr : splitNl rest with
      | nil => exact absurd hr ih
      | cons l ls => simp

theorem splitNl_no_nl (s : Str) : ∀ l ∈ splitNl s, ('\n') ∉ l := by
  induction s with
  | nil => intro l hl; simp [splitNl] at hl; simp [hl]
  | cons c rest ih =>
    intro l hl
    by_cases h : c = '\n'
    · simp only [splitNl, h, reduceIte] at hl
      rcases List.mem_cons.mp hl with hl' | hl'
      · simp [hl']
      · exact ih l hl'
    · simp only [splitNl, h, reduceIte] at hl
      cases hr : splitNl rest with
      | nil => exact absurd hr (splitNl_ne_nil rest)
      | cons t ts =>
        have hts : t ∈ splitNl rest := by rw [hr]; exact List.mem_cons_self t ts
        have hmem2 : ∀ x ∈ ts, x ∈ splitNl rest := by
          intro x hx; rw [hr]; exact List.mem_cons_of_mem t hx
        rw [hr] at hl
        rcases List.mem_cons.mp hl with hl' | hl'
        · subst hl'
          intro hmem
          rcases List.mem_cons.mp hmem with hc | hc
          · exact h hc.symm
          · exact ih t hts hc
        · exact ih l (hmem2 l hl')

theorem mem_of_mem_splitNl (s : Str) : ∀ l ∈ splitNl s, ∀ c ∈ l, c ∈ s := by
  induction s with
  | nil =>
    intro l hl c hc
    simp [splitNl] at hl
    subst hl
    simp at hc
  | cons a rest ih =>
    intro l hl c hc
    by_cases h : a = '\n'
    · simp only [splitNl, h, reduceIte] at hl
      rcases List.mem_cons.mp hl with hl' | hl'
      · subst hl'; simp at hc
      · exact List.mem_cons_of_mem a (ih l hl' c hc)
    · simp only [splitNl, h, reduceIte] at hl
      cases hr : splitNl rest with
      | nil => exact absurd hr (splitNl_ne_nil rest)
      | cons t ts =>
        have hts : t ∈ splitNl rest := by rw [hr]; exact List.mem_cons_self t ts
        have hmem2 : ∀ x ∈ ts, x ∈ splitNl rest := by
          intro x hx; rw [hr]; exact List.mem_cons_of_mem t hx
        rw [hr] at hl
        rcases List.mem_cons.mp hl with hl' | hl'
        · subst hl'
          rcases List.mem_cons.mp hc with hc' | hc'
          · rw [hc']; exact List.mem_cons_self a rest
          · exact List.mem_cons_of_mem a (ih t hts c hc')
        · exact List.mem_cons_of_mem a (ih l (hmem2 l hl') c hc)

theorem splitNl_line_append (a b : Str) (h : ('\n') ∉ a) :
    splitNl (a ++ ('\n') :: b) = a :: splitNl b := by
  induction a with
  | nil => simp [splitNl]
  | cons c a' ih =>
    have hc : ¬ c = '\n' := fun hcc => h (hcc ▸ List.mem_cons_self c a')
    have h' : ('\n') ∉ a' := fun hm => h (List.mem_cons_of_mem c hm)
    show splitNl (c :: (a' ++ ('\n') :: b)) = (c :: a') :: splitNl b
    simp only [splitNl, hc, reduceIte, ih h']

theorem joinLines_append (xs ys : List Str) :
    joinLines (xs ++ ys) = joinLines xs ++ joinLines ys := by
  induction xs with
  | nil => simp [joinLines]
  | cons l ls ih => simp [joinLines, ih]

theorem splitNl_joinLines (ls : List Str) (h : ∀ l ∈ ls, ('\n') ∉ l) :
    splitNl (joinLines ls) = ls ++ [[]] := by
  induction ls with
  | nil => simp [joinLines, splitNl]
  | cons l ls ih =>
    have h1 : ('\n') ∉ l := h l (List.mem_cons_self l ls)
    have h2 : ∀ x ∈ ls, ('\n') ∉ x := fun x hx => h x (List.mem_cons_of_mem l hx)
    simp only [joinLines, splitNl_line_append l _ h1, ih h2, List.cons_append]

theorem digitChar_isDigit (d : Nat) : (digitChar d).isDigit = true := by
  unfold digitChar
  split <;> decide

theorem isDigit_ne_nl {c : Char} (h : c.isDigit = true) : c ≠ '\n' := by
  intro hc
  subst hc
  exact absurd h (by decide)

theorem natToStrAux_spec :
    ∀ (fuel n : Nat) (acc : Str), n < 10 ^ (fuel + 1) →
      ∃ ds, natToStrAux (fuel + 1) n acc = ds ++ acc ∧ ds ≠ [] ∧ ∀ c ∈ ds, c.isDigit = true := by
  intro fuel
  induction fuel with
  | zero =>
    intro n acc h
    have h10 : n < 10 := by simpa using h
    refine ⟨[digitChar n], by simp [natToStrAux, h10], by simp, ?_⟩
    intro c hc
    simp at hc
    exact hc ▸ digitChar_isDigit n
  | succ fuel ih =>
    intro n acc h
    by_cases h10 : n < 10
    · refine ⟨[digitChar n], by simp [natToStrAux, h10], by simp, ?_⟩
      intro c hc
      simp at hc
      exact hc ▸ digitChar_isDigit n
    · have hdiv : n / 10 < 10 ^ (fuel + 1) := by
        rw [Nat.div_lt_iff_lt_mul (by norm_num)]
        calc n < 10 ^ (fuel + 1 + 1) := h
          _ = 10 ^ (fuel + 1) * 10 := by ring
      obtain ⟨ds, heq, hne, hdig⟩ := ih (n / 10) (digitChar (n % 10) :: acc) hdiv
      refine ⟨ds ++ [digitChar (n % 10)], ?_, by simp, ?_⟩
      · show (if n < 10 then digitChar n :: acc
            else natToStrAux (fuel + 1) (n / 10) (digitChar (n % 10) :: acc))
            = ds ++ [digitChar (n % 10)] ++ acc
        rw [if_neg h10, heq, List.append_assoc, List.singleton_append]
      · intro c hc
        rcases List.mem_append.mp hc with hc' | hc'
        · exact hdig c hc'
        · simp at hc'
          exact hc' ▸ digitChar_isDigit (n % 10)

theorem natToStr_ne_nil (n : Nat) : natToStr n ≠ [] := by
  have h : n < 10 ^ (n + 1) :=
    lt_of_lt_of_le (Nat.lt_pow_self (by norm_num) n)
      (Nat.pow_le_pow_right (by norm_num) (Nat.le_succ n))
  obtain ⟨ds, heq, hne, _⟩ := natToStrAux_spec n n [] h
  rw [natToStr, heq, List.append_nil]
  exact hne

theorem natToStr_all_digits (n : Nat) : ∀ c ∈ natToStr n, c.isDigit = true := by
  have h : n < 10 ^ (n + 1) :=
    lt_of_lt_of_le (Nat.lt_pow_self (by norm_num) n)
      (Nat.pow_le_pow_right (by norm_num) (Nat.le_succ n))
  obtain ⟨ds, heq, _, hdig⟩ := natToStrAux_spec n n [] h
  rw [natToStr, heq, List.append_nil]
  exact hdig

theorem natToStr_no_nl (n : Nat) : ('\n') ∉ natToStr n := fun hm =>
  isDigit_ne_nl (natToStr_all_digits n _ hm) rfl

theorem leadsWith_append (p b : Str) : leadsWith p (p ++ b) = true := by
  induction p with
  | nil => simp [leadsWith]
  | cons c p' ih => simp [leadsWith, ih]

theorem containsSub_of_leadsWith {p s : Str} (h : leadsWith p s = true) :
    containsSub p s = true := by
  cases s with
  | nil => simpa [containsSub] using h
  | cons c cs => simp [containsSub, h]

theorem containsSub_append (p a b : Str) : containsSub p (a ++ (p ++ b)) = true := by
  induction a with
  | nil => exact containsSub_of_leadsWith (leadsWith_append p b)
  | cons c a' ih => simp [containsSub, ih]

theorem leadsWith_mono {a c : Str} (s : Str) (h : leadsWith (a ++ c) s = true) :
    leadsWith a s = true := by
  induction a generalizing s with
  | nil => simp [leadsWith]
  | cons x a' ih =>
    cases s with
    | nil => simp [leadsWith] at h
    | cons y s' =>
      simp only [List.cons_append, leadsWith, Bool.and_eq_true] at h ⊢
      exact ⟨h.1, ih s' h.2⟩

theorem leadsWith_length {p s : Str} (h : leadsWith p s = true) : p.length ≤ s.length := by
  induction p generalizing s with
  | nil => simp
  | cons x p' ih =>
    cases s with
    | nil => simp [leadsWith] at h
    | cons y s' =>
      simp only [leadsWith, Bool.and_eq_true] at h
      simpa using ih h.2

theorem leadsWith_iff_append {p s : Str} (h : leadsWith p s = true) :
    ∃ r, s = p ++ r := by
  induction p generalizing s with
  | nil => exact ⟨s, rfl⟩
  | cons x p' ih =>
    cases s with
    | nil => simp [leadsWith] at h
    | cons y s' =>
      simp only [leadsWith, Bool.and_eq_true, decide_eq_true_eq] at h
      obtain ⟨r, hr⟩ := ih h.2
      exact ⟨r, by rw [h.1, hr]; rfl⟩

theorem takeWhile_digits_append (ds l : Str) (h : ∀ c ∈ ds, c.isDigit = true) :
    (ds ++ ('.') :: l).takeWhile Char.isDigit = ds := by
  induction ds with
  | nil => simp [List.takeWhile_cons]
  | cons c ds' ih =>
    have hc : c.isDigit = true := h c (List.mem_cons_self c ds')
    have h' : ∀ x ∈ ds', x.isDigit = true := fun x hx => h x (List.mem_cons_of_mem c hx)
    simp [List.takeWhile_cons, hc, ih h']

theorem parseNumberedLine_entry (ds l : Str) (h0 : ds ≠ [])
    (h : ∀ c ∈ ds, c.isDigit = true) :
    parseNumberedLine (ds ++ ('.') :: (' ') :: l) = some l := by
  unfold parseNumberedLine
  rw [takeWhile_digits_append ds ((' ') :: l) h, List.drop_left]
  simp [leadsWith, h0]

theorem isNumberedLine_entry (ds l : Str) (h0 : ds ≠ [])
    (h : ∀ c ∈ ds, c.isDigit = true) :
    isNumberedLine (ds ++ ('.') :: (' ') :: l) = true := by
  unfold isNumberedLine
  rw [takeWhile_digits_append ds ((' ') :: l) h, List.drop_left]
  simp [leadsWith, h0]

theorem parseNumberedLine_hash (r : Str) : parseNumberedLine (('#') :: r) = none := by
  unfold parseNumberedLine
  rw [List.takeWhile_cons]
  simp

theorem isNumberedLine_hash (r : Str) : isNumberedLine (('#') :: r) = false := by
  unfold isNumberedLine
  rw [List.takeWhile_cons]
  simp

theorem parseNumberedLine_nil : parseNumberedLine [] = none := rfl

theorem isNumberedLine_nil : isNumberedLine [] = false := rfl

theorem parseNumberedLine_numbered (n : Nat) (l : Str) :
    parseNumberedLine (natToStr n ++ ('.') :: (' ') :: l) = some l :=
  parseNumberedLine_entry (natToStr n) l (natToStr_ne_nil n) (natToStr_all_digits n)

theorem isNumberedLine_numbered (n : Nat) (l : Str) :
    isNumberedLine (natToStr n ++ ('.') :: (' ') :: l) = true :=
  isNumberedLine_entry (natToStr n) l (natToStr_ne_nil n) (natToStr_all_digits n)

/-! ## Structural decomposition of the generated file -/

theorem joinLines_numberedEntriesFrom (i : Nat) (ls : List Str) :
    joinLines (numberedEntriesFrom i ls) = numberedFrom i ls := by
  induction ls generalizing i with
  | nil => rfl
  | cons l ls ih =>
    simp [joinLines, numberedEntriesFrom, numberedFrom, ih, List.append_assoc]

theorem numberedEntriesFrom_no_nl (i : Nat) (ls : List Str)
    (h : ∀ l ∈ ls, ('\n') ∉ l) :
    ∀ e ∈ numberedEntriesFrom i ls, ('\n') ∉ e := by
  induction ls generalizing i with
  | nil => intro e he; simp [numberedEntriesFrom] at he
  | cons l ls ih =>
    intro e he
    rcases List.mem_cons.mp he with he' | he'
    · subst he'
      intro hm
      rcases List.mem_append.mp hm with hm' | hm'
      · exact natToStr_no_nl i hm'
      · rcases List.mem_cons.mp hm' with hm'' | hm''
        · exact absurd hm''.symm (by decide)
        · rcases List.mem_cons.mp hm'' with hm3 | hm3
          · exact absurd hm3.symm (by decide)
          · exact h l (List.mem_cons_self l ls) hm3
    · exact ih (i + 1) (fun x hx => h x (List.mem_cons_of_mem l hx)) e he'

set_option maxRecDepth 4000 in
theorem generateCommunityFile_eq_joinLines (now oc : Str) (fd : FormData) :
    generateCommunityFile now oc fd = joinLines (fileLines now oc fd) := by
  simp [generateCommunityFile, fileLines, joinLines, joinLines_append,
    joinLines_numberedEntriesFrom, List.append_assoc]

theorem fileLines_no_nl (now oc : Str) (fd : FormData)
    (hn : ('\n') ∉ now) (h1 : ('\n') ∉ fd.rename) (h2 : ('\n') ∉ fd.robuxFund)
    (h3 : ('\n') ∉ fd.communitiesMember) (h4 : ('\n') ∉ fd.ownerUsername) :
    ∀ l ∈ fileLines now oc fd, ('\n') ∉ l := by
  intro l hl
  have hlit : ∀ (t : String) (x : Str), ('\n') ∉ t.data → ('\n') ∉ x →
      ('\n') ∉ t.data ++ x := by
    intro t x ht hx hm
    rcases List.mem_append.mp hm with h' | h'
    · exact ht h'
    · exact hx h'
  simp only [fileLines, List.mem_cons] at hl
  rcases hl with rfl | rfl | rfl | rfl | rfl | rfl | rfl | hl
  · exact hlit _ _ (by decide) hn
  · exact hlit _ _ (by decide) h1
  · exact hlit _ _ (by decide) h2
  · exact hlit _ _ (by decide) h3
  · exact hlit _ _ (by decide) h4
  · simp
  · decide
  · rcases List.mem_append.mp hl with hl' | hl'
    · exact numberedEntriesFrom_no_nl 1 _
        (fun x hx => splitNl_no_nl oc x (List.mem_of_mem_filter hx)) l hl'
    · rcases List.mem_cons.mp hl' with rfl | hl''
      · simp
      · rcases List.mem_cons.mp hl'' with rfl | hl3
        · decide
        · rcases List.mem_cons.mp hl3 with rfl | hl4
          · exact hlit _ _ (by decide) (natToStr_no_nl _)
          · simp at hl4

/-- The generated file, split back into lines, is exactly its line list
plus the empty piece after the trailing newline — provided the timestamp
and the metadata fields contain no newline character. -/
theorem generateCommunityFile_splitNl (now oc : Str) (fd : FormData)
    (hn : ('\n') ∉ now) (h1 : ('\n') ∉ fd.rename) (h2 : ('\n') ∉ fd.robuxFund)
    (h3 : ('\n') ∉ fd.communitiesMember) (h4 : ('\n') ∉ fd.ownerUsername) :
    splitNl (generateCommunityFile now oc fd) = fileLines now oc fd ++ [[]] := by
  rw [generateCommunityFile_eq_joinLines]
  exact splitNl_joinLines _ (fileLines_no_nl now oc fd hn h1 h2 h3 h4)

theorem isNumberedLine_hash_append (y x : Str) :
    isNumberedLine ((('#') :: y) ++ x) = false := by
  rw [List.cons_append]
  exact isNumberedLine_hash _

theorem parseNumberedLine_hash_append (y x : Str) :
    parseNumberedLine ((('#') :: y) ++ x) = none := by
  rw [List.cons_append]
  exact parseNumberedLine_hash _

theorem filter_numberedEntries (i : Nat) (ls : List Str) :
    (numberedEntriesFrom i ls).filter isNumberedLine = numberedEntriesFrom i ls := by
  induction ls generalizing i with
  | nil => rfl
  | cons l ls ih =>
    simp [numberedEntriesFrom, List.filter_cons, isNumberedLine_numbered, ih]

theorem filterMap_numberedEntries (i : Nat) (ls : List Str) :
    (numberedEntriesFrom i ls).filterMap parseNumberedLine = ls := by
  induction ls generalizing i with
  | nil => rfl
  | cons l ls ih =>
    simp [numberedEntriesFrom, List.filterMap_cons, parseNumberedLine_numbered, ih]

theorem length_numberedEntries (i : Nat) (ls : List Str) :
    (numberedEntriesFrom i ls).length = ls.length := by
  induction ls generalizing i with
  | nil => rfl
  | cons l ls ih => simp [numberedEntriesFrom, ih]

theorem filter_isNumberedLine_fileLines (now oc : Str) (fd : FormData) :
    (fileLines now oc fd ++ [[]]).filter isNumberedLine
      = numberedEntriesFrom 1 ((splitNl oc).filter trimNonEmpty) := by
  have e1 : ("# Community Configuration Generated on ").data
      = ('#') :: (" Community Configuration Generated on ").data := rfl
  have e2 : ("# Rename: ").data = ('#') :: (" Rename: ").data := rfl
  have e3 : ("# Robux Fund: ").data = ('#') :: (" Robux Fund: ").data := rfl
  have e4 : ("# Communities Member: ").data = ('#') :: (" Communities Member: ").data := rfl
  have e5 : ("# Owner Username: ").data = ('#') :: (" Owner Username: ").data := rfl
  have e7 : ("# Total Communities: ").data = ('#') :: (" Total Communities: ").data := rfl
  rw [fileLines, e1, e2, e3, e4, e5, e7]
  simp [List.filter_append, List.filter_cons, isNumberedLine_hash_append,
    isNumberedLine_hash, isNumberedLine_nil, filter_numberedEntries,
    show isNumberedLine (("# Original Communities Data:").data) = false from by decide,
    show isNumberedLine (("# Processing Complete").data) = false from by decide]

theorem filterMap_parseNumberedLine_fileLines (now oc : Str) (fd : FormData) :
    (fileLines now oc fd ++ [[]]).filterMap parseNumberedLine
      = (splitNl oc).filter trimNonEmpty := by
  have e1 : ("# Community Configuration Generated on ").data
      = ('#') :: (" Community Configuration Generated on ").data := rfl
  have e2 : ("# Rename: ").data = ('#') :: (" Rename: ").data := rfl
  have e3 : ("# Robux Fund: ").data = ('#') :: (" Robux Fund: ").data := rfl
  have e4 : ("# Communities Member: ").data = ('#') :: (" Communities Member: ").data := rfl
  have e5 : ("# Owner Username: ").data = ('#') :: (" Owner Username: ").data := rfl
  have e7 : ("# Total Communities: ").data = ('#') :: (" Total Communities: ").data := rfl
  rw [fileLines, e1, e2, e3, e4, e5, e7]
  simp [List.filterMap_append, List.filterMap_cons, parseNumberedLine_hash_append,
    parseNumberedLine_hash, parseNumberedLine_nil, filterMap_numberedEntries,
    show parseNumberedLine (("# Original Communities Data:").data) = none from by decide,
    show parseNumberedLine (("# Processing Complete").data) = none from by decide]

set_option maxRecDepth 4000 in
theorem generateCommunityFile_head_decompose (now oc : Str) (fd : FormData) :
    generateCommunityFile now oc fd
      = (("# Community Configuration Generated on ").data ++ now)
          ++ ('\n') :: afterHeader oc fd := by
  simp [generateCommunityFile, afterHeader, List.append_assoc]

/-! ## Lemmas about the persistence gateway -/

theorem mapSet_fresh {α : Type} (m : JsMap α) (k : Nat) (v : α)
    (h : ∀ p ∈ m, p.1 ≠ k) : mapSet m k v = m ++ [(k, v)] := by
  unfold mapSet
  rw [if_neg]
  simp only [List.any_eq_true, decide_eq_true_eq, not_exists]
  intro p
  exact fun hmem => absurd hmem.2 (h p hmem.1)

theorem getAllCommunities_createCommunity (s : MemStorage) (ic : InsertCommunity)
    (now : Str) (hwf : storeWf s) :
    getAllCommunities (createCommunity s ic now).2
      = getAllCommunities s ++ [(createCommunity s ic now).1] := by
  unfold getAllCommunities createCommunity
  simp only
  rw [mapSet_fresh _ _ _ (fun p hp => Nat.ne_of_lt (hwf p hp).1)]
  simp

theorem storeWf_createCommunity (s : MemStorage) (ic : InsertCommunity) (now : Str)
    (hwf : storeWf s) : storeWf (createCommunity s ic now).2 := by
  intro p hp
  unfold createCommunity at hp
  simp only at hp
  rw [mapSet_fresh _ _ _ (fun q hq => Nat.ne_of_lt (hwf q hq).1)] at hp
  rcases List.mem_append.mp hp with h' | h'
  · exact ⟨Nat.lt_succ_of_lt (hwf p h').1, (hwf p h').2⟩
  · simp at h'
    subst h'
    exact ⟨Nat.lt_succ_self _, rfl⟩

theorem storeWf_initialStorage : storeWf initialStorage := by
  intro p hp
  simp [initialStorage] at hp

theorem createCommunities_spec (xs : List (InsertCommunity × Str)) :
    ∀ s : MemStorage,
      ((createCommunities s xs).1).map (fun c => c.id)
          = List.range' s.currentCommunityId xs.length
        ∧ (createCommunities s xs).2.currentCommunityId
          = s.currentCommunityId + xs.length := by
  induction xs with
  | nil => intro s; simp [createCommunities]
  | cons x rest ih =>
    intro s
    obtain ⟨ic, now⟩ := x
    obtain ⟨h1, h2⟩ := ih (createCommunity s ic now).2
    have hcur : (createCommunity s ic now).2.currentCommunityId
        = s.currentCommunityId + 1 := rfl
    have hid : (createCommunity s ic now).1.id = s.currentCommunityId := rfl
    constructor
    · simp only [createCommunities, List.map_cons, h1, hcur, hid, List.length_cons,
        List.range'_succ]
    · simp only [createCommunities, h2, hcur, List.length_cons]
      omega

theorem createUsers_spec (ys : List InsertUser) :
    ∀ s : MemStorage,
      ((createUsers s ys).1).map (fun u => u.id)
          = List.range' s.currentUserId ys.length
        ∧ (createUsers s ys).2.currentUserId = s.currentUserId + ys.length := by
  induction ys with
  | nil => intro s; simp [createUsers]
  | cons iu rest ih =>
    intro s
    obtain ⟨h1, h2⟩ := ih (createUser s iu).2
    have hcur : (createUser s iu).2.currentUserId = s.currentUserId + 1 := rfl
    have hid : (createUser s iu).1.id = s.currentUserId := rfl
    constructor
    · simp only [createUsers, List.map_cons, h1, hcur, hid, List.length_cons,
        List.range'_succ]
    · simp only [createUsers, h2, hcur, List.length_cons]
      omega

theorem mem_getAllCommunities_id_lt {s : MemStorage} {r : Community}
    (hwf : storeWf s) (hr : r ∈ getAllCommunities s) : r.id < s.currentCommunityId := by
  obtain ⟨p, hp, hpr⟩ := List.mem_map.mp hr
  have h := hwf p hp
  rw [← hpr, ← h.2]
  exact h.1

/-- C7: on one `MemStorage`, the identifiers returned by a sequence of
`createCommunity` calls are exactly the consecutive range starting at the
current counter — hence pairwise distinct and strictly increasing in
creation order — no returned identifier collides with any identifier
already stored, and the same holds for a sequence of `createUser` calls. -/
theorem memStorage_ids_strictly_increasing (s : MemStorage)
    (xs : List (InsertCommunity × Str)) (ys : List InsertUser) (hwf : storeWf s) :
    ((createCommunities s xs).1).map (fun c => c.id)
        = List.range' s.currentCommunityId xs.length
      ∧ List.Pairwise (· < ·) (((createCommunities s xs).1).map (fun c => c.id))
      ∧ (∀ c ∈ (createCommunities s xs).1, ∀ p ∈ s.communities, p.1 ≠ c.id)
      ∧ ((createUsers s ys).1).map (fun u => u.id)
        = List.range' s.currentUserId ys.length
      ∧ List.Pairwise (· < ·) (((createUsers s ys).1).map (fun u => u.id)) := by
  obtain ⟨hc1, _⟩ := createCommunities_spec xs s
  obtain ⟨hu1, _⟩ := createUsers_spec ys s
  refine ⟨hc1, ?_, ?_, hu1, ?_⟩
  · rw [hc1]; exact List.pairwise_lt_range' _ _
  · intro c hc p hp
    have hmem : c.id ∈ ((createCommunities s xs).1).map (fun c => c.id) :=
      List.mem_map_of_mem _ hc
    rw [hc1] at hmem
    have hge := (List.mem_range'_1.mp hmem).1
    have hlt := (hwf p hp).1
    omega
  · rw [hu1]; exact List.pairwise_lt_range' _ _

/-- C7 witness: three community creations and two user creations on the
fresh store yield identifiers 1,2,3 and 1,2. -/
theorem memStorage_ids_strictly_increasing_witness :
    ((createCommunities initialStorage
        [(⟨[], [], [], [], [], []⟩, []), (⟨[], [], [], [], [], []⟩, []),
          (⟨[], [], [], [], [], []⟩, [])]).1).map (fun c => c.id)
        = List.range' initialStorage.currentCommunityId 3
      ∧ List.Pairwise (· < ·) (((createCommunities initialStorage
          [(⟨[], [], [], [], [], []⟩, []), (⟨[], [], [], [], [], []⟩, []),
            (⟨[], [], [], [], [], []⟩, [])]).1).map (fun c => c.id))
      ∧ (∀ c ∈ (createCommunities initialStorage
          [(⟨[], [], [], [], [], []⟩, []), (⟨[], [], [], [], [], []⟩, []),
            (⟨[], [], [], [], [], []⟩, [])]).1,
          ∀ p ∈ initialStorage.communities, p.1 ≠ c.id)
      ∧ ((createUsers initialStorage [⟨[], []⟩, ⟨[], []⟩]).1).map (fun u => u.id)
        = List.range' initialStorage.currentUserId 2
      ∧ List.Pairwise (· < ·)
          (((createUsers initialStorage [⟨[], []⟩, ⟨[], []⟩]).1).map (fun u => u.id)) :=
  memStorage_ids_strictly_increasing initialStorage
    [(⟨[], [], [], [], [], []⟩, []), (⟨[], [], [], [], [], []⟩, []),
      (⟨[], [], [], [], [], []⟩, [])]
    [⟨[], []⟩, ⟨[], []⟩] storeWf_initialStorage

/-- C9: `getAllCommunities` lists the stored records in insertion order:
each `createCommunity` appends its record at the end, the new record
occurs exactly once, ascending-identifier order is preserved, and the
store stays well-formed. -/
theorem getAllCommunities_insertion_order (s : MemStorage) (ic : InsertCommunity)
    (now : Str) (hwf : storeWf s) :
    getAllCommunities (createCommunity s ic now).2
        = getAllCommunities s ++ [(createCommunity s ic now).1]
      ∧ List.count (createCommunity s ic now).1
          (getAllCommunities (createCommunity s ic now).2) = 1
      ∧ (List.Pairwise (· < ·) ((getAllCommunities s).map (fun r => r.id)) →
          List.Pairwise (· < ·)
            ((getAllCommunities (createCommunity s ic now).2).map (fun r => r.id)))
      ∧ storeWf (createCommunity s ic now).2 := by
  have h1 := getAllCommunities_createCommunity s ic now hwf
  have hid : (createCommunity s ic now).1.id = s.currentCommunityId := rfl
  have hnotmem : (createCommunity s ic now).1 ∉ getAllCommunities s := by
    intro hmem
    have := mem_getAllCommunities_id_lt hwf hmem
    rw [hid] at this
    omega
  refine ⟨h1, ?_, ?_, storeWf_createCommunity s ic now hwf⟩
  · rw [h1, List.count_append, List.count_eq_zero.mpr hnotmem]
    simp
  · intro hp
    rw [h1, List.map_append]
    rw [List.pairwise_append]
    refine ⟨hp, by simp, ?_⟩
    intro a ha b hb
    simp only [List.map_cons, List.map_nil, List.mem_cons, List.not_mem_nil,
      or_false] at hb
    obtain ⟨r, hr, hra⟩ := List.mem_map.mp ha
    have := mem_getAllCommunities_id_lt hwf hr
    rw [hb, hid, ← hra]
    omega

/-- C9 witness: creating a record on the fresh store appends it, it occurs
once, identifier order is ascending, and well-formedness is preserved. -/
theorem getAllCommunities_insertion_order_witness :
    getAllCommunities (createCommunity initialStorage ⟨[], [], [], [], [], []⟩ []).2
        = getAllCommunities initialStorage
            ++ [(createCommunity initialStorage ⟨[], [], [], [], [], []⟩ []).1]
      ∧ List.count (createCommunity initialStorage ⟨[], [], [], [], [], []⟩ []).1
          (getAllCommunities (createCommunity initialStorage ⟨[], [], [], [], [], []⟩ []).2) = 1
      ∧ (List.Pairwise (· < ·) ((getAllCommunities initialStorage).map (fun r => r.id)) →
          List.Pairwise (· < ·)
            ((getAllCommunities
                (createCommunity initialStorage ⟨[], [], [], [], [], []⟩ []).2).map
              (fun r => r.id)))
      ∧ storeWf (createCommunity initialStorage ⟨[], [], [], [], [], []⟩ []).2 :=
  getAllCommunities_insertion_order initialStorage ⟨[], [], [], [], [], []⟩ []
    storeWf_initialStorage

/-! ## Lemmas about validation and the request handler -/

theorem leadsWith_refl (p : Str) : leadsWith p p = true := by
  have h := leadsWith_append p []
  rwa [List.append_nil] at h

theorem containsSub_append_left (p a b : Str) (h : containsSub p b = true) :
    containsSub p (a ++ b) = true := by
  induction a with
  | nil => simpa
  | cons c a' ih => simp [containsSub, ih]

theorem checkReq_mem_of_absentOrEmpty (name msg : Str) (v : Option Str)
    (h : absentOrEmpty v) : ∃ i ∈ checkReq name msg v, i.path = name := by
  rcases h with h | h <;> subst h <;> simp [checkReq]

theorem reqChecks_issue (b : Body) (f : ReqField) (h : absentOrEmpty (getField b f)) :
    ∃ i ∈ reqChecks b, i.path = fieldName f := by
  cases f <;>
    · obtain ⟨i, hi, hp⟩ := checkReq_mem_of_absentOrEmpty _ _ _ h
      refine ⟨i, ?_, hp⟩
      simp only [reqChecks, List.mem_append]
      tauto

theorem parseCreateCommunity_error (b : Body) (hne : reqChecks b ≠ []) :
    parseCreateCommunity b = Except.error (reqChecks b) := by
  rcases b with ⟨r, rf, cm, ou, tc⟩
  rcases r with _ | r <;> rcases rf with _ | rf <;> rcases cm with _ | cm <;>
    rcases ou with _ | ou <;> rcases tc with _ | tc <;>
    simp_all [parseCreateCommunity, List.isEmpty_iff]

/-- C2: a submission in which some required field is absent or empty is
answered with `400 {success:false, message:"Validation error", errors}`
where the errors name that field; the store is untouched and the webhook
fetch is never issued. -/
theorem postCommunities_validation_reject (env : Env) (wres : WebhookResult)
    (now : Str) (s : MemStorage) (b : Body) (f : ReqField)
    (h : absentOrEmpty (getField b f)) :
    postCommunities env wres now s b
        = ⟨⟨400, false, ("Validation error").data, reqChecks b, none⟩, s, false⟩
      ∧ ∃ i ∈ reqChecks b, i.path = fieldName f := by
  obtain ⟨i, hi, hp⟩ := reqChecks_issue b f h
  have hne : reqChecks b ≠ [] := by
    intro hnil
    rw [hnil] at hi
    simp at hi
  refine ⟨?_, ⟨i, hi, hp⟩⟩
  unfold postCommunities
  rw [parseCreateCommunity_error b hne]

/-- C2 witness: a concrete body with `rename` absent is rejected with a
`rename` error entry and no side effect. -/
theorem postCommunities_validation_reject_witness :
    postCommunities cexEnv WebhookResult.ok [] initialStorage
        ⟨none, some ("100").data, some ("m1").data, some ("o1").data, some ("w").data⟩
        = ⟨⟨400, false, ("Validation error").data,
            reqChecks ⟨none, some ("100").data, some ("m1").data, some ("o1").data,
              some ("w").data⟩, none⟩, initialStorage, false⟩
      ∧ ∃ i ∈ reqChecks ⟨none, some ("100").data, some ("m1").data, some ("o1").data,
          some ("w").data⟩, i.path = fieldName ReqField.rename :=
  postCommunities_validation_reject cexEnv WebhookResult.ok [] initialStorage
    ⟨none, some ("100").data, some ("m1").data, some ("o1").data, some ("w").data⟩
    ReqField.rename (Or.inl rfl)

/-- C3: when the outbound webhook call fails (HTTP-level or transport
error), the handler answers 500 and the record is not persisted: the store
is unchanged, so a subsequent `GET /api/communities` sees the same
records. -/
theorem postCommunities_webhook_failure (env : Env) (wres : WebhookResult)
    (now : Str) (s : MemStorage) (b : Body) (v : CreateCommunityRequest) (u : Str)
    (hp : parseCreateCommunity b = Except.ok v) (hu : env.webhookUrl = some u)
    (hw : wres ≠ WebhookResult.ok) :
    (postCommunities env wres now s b).response.status = 500
      ∧ (postCommunities env wres now s b).store = s
      ∧ getAllCommunities (postCommunities env wres now s b).store
        = getAllCommunities s := by
  unfold postCommunities
  rw [hp, hu]
  cases wres with
  | ok => exact absurd rfl hw
  | httpError st stx et => exact ⟨rfl, rfl, rfl⟩
  | transportError m => exact ⟨rfl, rfl, rfl⟩

/-- C3 witness: a concrete transport failure leaves the fresh store
unchanged and answers 500. -/
theorem postCommunities_webhook_failure_witness :
    (postCommunities cexEnv (WebhookResult.transportError ("fetch failed").data)
        ("TS").data initialStorage validBody).response.status = 500
      ∧ (postCommunities cexEnv (WebhookResult.transportError ("fetch failed").data)
          ("TS").data initialStorage validBody).store = initialStorage
      ∧ getAllCommunities (postCommunities cexEnv
            (WebhookResult.transportError ("fetch failed").data)
            ("TS").data initialStorage validBody).store
        = getAllCommunities initialStorage :=
  postCommunities_webhook_failure cexEnv
    (WebhookResult.transportError ("fetch failed").data) ("TS").data initialStorage
    validBody
    ⟨("Alpha").data, ("100").data, ("m1").data, ("o1").data,
      ("line one\n\nline two").data⟩
    (("https://discord.com/api/webhooks/1").data) rfl rfl (by decide)

/-- C5 counterexample: on a webhook HTTP failure the 500 body's message is
the thrown error's message, which embeds the upstream status (`404`) and
the webhook service's response text — the claim that no such detail
appears in the client-visible message is false. -/
theorem postCommunities_leak_cex :
    (postCommunities cexEnv
        (WebhookResult.httpError 404 ("Not Found").data ("missing channel").data)
        ("TS").data initialStorage validBody).response.status = 500
      ∧ containsSub (natToStr 404)
          (postCommunities cexEnv
            (WebhookResult.httpError 404 ("Not Found").data ("missing channel").data)
            ("TS").data initialStorage validBody).response.message = true
      ∧ containsSub (("missing channel").data)
          (postCommunities cexEnv
            (WebhookResult.httpError 404 ("Not Found").data ("missing channel").data)
            ("TS").data initialStorage validBody).response.message = true
      ∧ (postCommunities cexEnv
            (WebhookResult.httpError 404 ("Not Found").data ("missing channel").data)
            ("TS").data initialStorage validBody).response.message
        ≠ ("Failed to create community").data := by
  decide

/-- C5 (amended): for a validated submission whose webhook fetch fails at
the HTTP level, the 500 response's message is the thrown error's message
`"Failed to send to Discord: Discord API error: <status> <statusText> -
<errorText>"`, which contains the upstream status and the webhook
service's response text as substrings. -/
theorem postCommunities_error_message_detail (env : Env) (wres : WebhookResult)
    (now : Str) (s : MemStorage) (b : Body) (v : CreateCommunityRequest) (u : Str)
    (st : Nat) (stx et : Str)
    (hp : parseCreateCommunity b = Except.ok v) (hu : env.webhookUrl = some u)
    (hw : wres = WebhookResult.httpError st stx et) :
    (postCommunities env wres now s b).response.status = 500
      ∧ (postCommunities env wres now s b).response.message
        = ("Failed to send to Discord: ").data ++ ("Discord API error: ").data
            ++ natToStr st ++ (' ') :: stx ++ (" - ").data ++ et
      ∧ containsSub (natToStr st)
          (postCommunities env wres now s b).response.message = true
      ∧ containsSub et (postCommunities env wres now s b).response.message = true := by
  subst hw
  unfold postCommunities
  rw [hp, hu]
  refine ⟨rfl, rfl, ?_, ?_⟩
  · show containsSub (natToStr st)
      (("Failed to send to Discord: ").data ++ ("Discord API error: ").data
        ++ natToStr st ++ (' ') :: stx ++ (" - ").data ++ et) = true
    rw [show ("Failed to send to Discord: ").data ++ ("Discord API error: ").data
        ++ natToStr st ++ (' ') :: stx ++ (" - ").data ++ et
        = (("Failed to send to Discord: ").data ++ ("Discord API error: ").data)
            ++ (natToStr st ++ ((' ') :: stx ++ (" - ").data ++ et)) from by
      simp [List.append_assoc]]
    exact containsSub_append (natToStr st) _ _
  · show containsSub et
      (("Failed to send to Discord: ").data ++ ("Discord API error: ").data
        ++ natToStr st ++ (' ') :: stx ++ (" - ").data ++ et) = true
    rw [show ("Failed to send to Discord: ").data ++ ("Discord API error: ").data
        ++ natToStr st ++ (' ') :: stx ++ (" - ").data ++ et
        = (("Failed to send to Discord: ").data ++ ("Discord API error: ").data
            ++ natToStr st ++ (' ') :: stx ++ (" - ").data) ++ et from by
      simp [List.append_assoc]]
    exact containsSub_append_left et _ et (containsSub_of_leadsWith (leadsWith_refl et))

/-- C5 (amended) witness: a concrete HTTP 502 failure produces the
expected message with the status and response text embedded. -/
theorem postCommunities_error_message_detail_witness :
    (postCommunities cexEnv
        (WebhookResult.httpError 502 ("Bad Gateway").data ("upstream down").data)
        ("TS").data initialStorage validBody).response.status = 500
      ∧ (postCommunities cexEnv
          (WebhookResult.httpError 502 ("Bad Gateway").data ("upstream down").data)
          ("TS").data initialStorage validBody).response.message
        = ("Failed to send to Discord: ").data ++ ("Discord API error: ").data
            ++ natToStr 502 ++ (' ') :: ("Bad Gateway").data ++ (" - ").data
            ++ ("upstream down").data
      ∧ containsSub (natToStr 502)
          (postCommunities cexEnv
            (WebhookResult.httpError 502 ("Bad Gateway").data ("upstream down").data)
            ("TS").data initialStorage validBody).response.message = true
      ∧ containsSub (("upstream down").data)
          (postCommunities cexEnv
            (WebhookResult.httpError 502 ("Bad Gateway").data ("upstream down").data)
            ("TS").data initialStorage validBody).response.message = true :=
  postCommunities_error_message_detail cexEnv
    (WebhookResult.httpError 502 ("Bad Gateway").data ("upstream down").data)
    ("TS").data initialStorage validBody
    ⟨("Alpha").data, ("100").data, ("m1").data, ("o1").data,
      ("line one\n\nline two").data⟩
    (("https://discord.com/api/webhooks/1").data) 502 ("Bad Gateway").data
    ("upstream down").data rfl rfl rfl

/-! ## The transform claims -/

/-- C1 (amended): provided the timestamp and the metadata fields contain
no newline character, the transform output contains exactly one
numbered-form line per non-blank input line — numbered `1.`, `2.`, … in
input order — and the summary line just before the trailing newline
reports that count. -/
theorem generateCommunityFile_numbering (now oc : Str) (fd : FormData)
    (hn : ('\n') ∉ now) (h1 : ('\n') ∉ fd.rename) (h2 : ('\n') ∉ fd.robuxFund)
    (h3 : ('\n') ∉ fd.communitiesMember) (h4 : ('\n') ∉ fd.ownerUsername) :
    (splitNl (generateCommunityFile now oc fd)).filter isNumberedLine
        = numberedEntriesFrom 1 ((splitNl oc).filter trimNonEmpty)
      ∧ ((splitNl (generateCommunityFile now oc fd)).filter isNumberedLine).length
        = ((splitNl oc).filter trimNonEmpty).length
      ∧ ∃ front, splitNl (generateCommunityFile now oc fd)
          = front ++ [("# Total Communities: ").data
              ++ natToStr ((splitNl oc).filter trimNonEmpty).length, []] := by
  have hs := generateCommunityFile_splitNl now oc fd hn h1 h2 h3 h4
  refine ⟨?_, ?_, ?_⟩
  · rw [hs]
    exact filter_isNumberedLine_fileLines now oc fd
  · rw [hs, filter_isNumberedLine_fileLines now oc fd, length_numberedEntries]
  · refine ⟨(("# Community Configuration Generated on ").data ++ now)
        :: (("# Rename: ").data ++ fd.rename)
        :: (("# Robux Fund: ").data ++ fd.robuxFund)
        :: (("# Communities Member: ").data ++ fd.communitiesMember)
        :: (("# Owner Username: ").data ++ fd.ownerUsername)
        :: []
        :: ("# Original Communities Data:").data
        :: (numberedEntriesFrom 1 ((splitNl oc).filter trimNonEmpty)
            ++ [[], ("# Processing Complete").data]), ?_⟩
    rw [hs]
    simp [fileLines, List.append_assoc]

/-- C1 witness: on `"line one\n\nline two"` the output has numbered lines
`1. line one`, `2. line two` and the summary reports 2. -/
theorem generateCommunityFile_numbering_witness :
    (splitNl (generateCommunityFile (("TS").data) (("line one\n\nline two").data)
          ⟨("Alpha").data, ("100").data, ("m1").data, ("o1").data⟩)).filter isNumberedLine
        = numberedEntriesFrom 1
            ((splitNl (("line one\n\nline two").data)).filter trimNonEmpty)
      ∧ ((splitNl (generateCommunityFile (("TS").data) (("line one\n\nline two").data)
            ⟨("Alpha").data, ("100").data, ("m1").data, ("o1").data⟩)).filter
          isNumberedLine).length
        = ((splitNl (("line one\n\nline two").data)).filter trimNonEmpty).length
      ∧ ∃ front, splitNl (generateCommunityFile (("TS").data)
            (("line one\n\nline two").data)
            ⟨("Alpha").data, ("100").data, ("m1").data, ("o1").data⟩)
          = front ++ [("# Total Communities: ").data
              ++ natToStr ((splitNl (("line one\n\nline two").data)).filter
                  trimNonEmpty).length, []] :=
  generateCommunityFile_numbering (("TS").data) (("line one\n\nline two").data)
    ⟨("Alpha").data, ("100").data, ("m1").data, ("o1").data⟩
    (by decide) (by decide) (by decide) (by decide) (by decide)

/-- C1 counterexample: with the non-empty `rename` value `"a\n1. fake"`
the output has two numbered-form lines while the input `"x"` has a single
non-blank line, so the claimed equality fails for some metadata with
non-empty fields. -/
theorem generateCommunityFile_numbering_cex :
    (((splitNl (generateCommunityFile (("TS").data) (("x").data)
          ⟨("a\n1. fake").data, ("100").data, ("m1").data, ("o1").data⟩)).filter
        isNumberedLine).length = 2)
      ∧ ((splitNl (("x").data)).filter trimNonEmpty).length = 1 := by
  decide

/-- The handler's success path: parse succeeded, the env var is set, the
webhook fetch succeeded — the record is created from the validated data
and the response is `200` with its identifier. -/
theorem postCommunities_success (env : Env) (wres : WebhookResult) (now : Str)
    (s : MemStorage) (b : Body) (v : CreateCommunityRequest) (u : Str)
    (hp : parseCreateCommunity b = Except.ok v) (hu : env.webhookUrl = some u)
    (hw : wres = WebhookResult.ok) :
    postCommunities env wres now s b
      = ⟨⟨200, true,
          ("Community file generated and sent to Discord successfully!").data, [],
          some (createCommunity s ⟨v.rename, v.robuxFund, v.communitiesMember,
            v.ownerUsername, v.textContent,
            generateCommunityFile now v.textContent
              ⟨v.rename, v.robuxFund, v.communitiesMember, v.ownerUsername⟩⟩ now).1.id⟩,
        (createCommunity s ⟨v.rename, v.robuxFund, v.communitiesMember,
          v.ownerUsername, v.textContent,
          generateCommunityFile now v.textContent
            ⟨v.rename, v.robuxFund, v.communitiesMember, v.ownerUsername⟩⟩ now).2,
        true⟩ := by
  subst hw
  unfold postCommunities
  rw [hp, hu]
  rfl

/-- C4 (amended): a successful submission whose metadata and timestamp
contain no newline appends exactly one record to the store, and re-parsing
that record's `generatedContent` for its numbered-form lines recovers
exactly the non-blank lines of its `originalContent`, in order,
unchanged. -/
theorem roundTrip_persisted (env : Env) (wres : WebhookResult) (now : Str)
    (s : MemStorage) (b : Body) (v : CreateCommunityRequest) (u : Str)
    (hp : parseCreateCommunity b = Except.ok v) (hu : env.webhookUrl = some u)
    (hw : wres = WebhookResult.ok) (hwf : storeWf s)
    (hn : ('\n') ∉ now) (h1 : ('\n') ∉ v.rename) (h2 : ('\n') ∉ v.robuxFund)
    (h3 : ('\n') ∉ v.communitiesMember) (h4 : ('\n') ∉ v.ownerUsername) :
    ∃ c : Community,
      getAllCommunities (postCommunities env wres now s b).store
          = getAllCommunities s ++ [c]
        ∧ c.originalContent = v.textContent
        ∧ (splitNl c.generatedContent).filterMap parseNumberedLine
          = (splitNl c.originalContent).filter trimNonEmpty := by
  refine ⟨(createCommunity s ⟨v.rename, v.robuxFund, v.communitiesMember,
      v.ownerUsername, v.textContent,
      generateCommunityFile now v.textContent
        ⟨v.rename, v.robuxFund, v.communitiesMember, v.ownerUsername⟩⟩ now).1,
    ?_, rfl, ?_⟩
  · rw [postCommunities_success env wres now s b v u hp hu hw]
    exact getAllCommunities_createCommunity s _ now hwf
  · show (splitNl (generateCommunityFile now v.textContent
        ⟨v.rename, v.robuxFund, v.communitiesMember, v.ownerUsername⟩)).filterMap
          parseNumberedLine
      = (splitNl v.textContent).filter trimNonEmpty
    rw [generateCommunityFile_splitNl now v.textContent
      ⟨v.rename, v.robuxFund, v.communitiesMember, v.ownerUsername⟩ hn h1 h2 h3 h4]
    exact filterMap_parseNumberedLine_fileLines now v.textContent _

/-- C4 witness: a concrete successful submission round-trips. -/
theorem roundTrip_persisted_witness :
    ∃ c : Community,
      getAllCommunities (postCommunities cexEnv WebhookResult.ok ("TS").data
            initialStorage validBody).store
          = getAllCommunities initialStorage ++ [c]
        ∧ c.originalContent = ("line one\n\nline two").data
        ∧ (splitNl c.generatedContent).filterMap parseNumberedLine
          = (splitNl c.originalContent).filter trimNonEmpty :=
  roundTrip_persisted cexEnv WebhookResult.ok ("TS").data initialStorage validBody
    ⟨("Alpha").data, ("100").data, ("m1").data, ("o1").data,
      ("line one\n\nline two").data⟩
    (("https://discord.com/api/webhooks/1").data) rfl rfl rfl
    storeWf_initialStorage (by decide) (by decide) (by decide) (by decide) (by decide)

/-- C4 counterexample: the record persisted for `injBody` (a validated
submission) has a `generatedContent` whose numbered-form lines re-parse to
`["fake", "x"]`, not to the non-blank lines `["x"]` of its
`originalContent`. -/
theorem roundTrip_persisted_cex :
    (getAllCommunities (postCommunities cexEnv WebhookResult.ok ("TS").data
        initialStorage injBody).store).length = 1
      ∧ ∀ c ∈ getAllCommunities (postCommunities cexEnv WebhookResult.ok ("TS").data
          initialStorage injBody).store,
          (splitNl c.generatedContent).filterMap parseNumberedLine
            ≠ (splitNl c.originalContent).filter trimNonEmpty := by
  decide

/-- C8: two transform runs on the same input and metadata differ only in
the single header line embedding the timestamp: the line lists have
identical tails, and the head lines are the timestamp header. -/
theorem generateCommunityFile_deterministic (ts1 ts2 oc : Str) (fd : FormData)
    (h1 : ('\n') ∉ ts1) (h2 : ('\n') ∉ ts2) :
    (splitNl (generateCommunityFile ts1 oc fd)).tail
        = (splitNl (generateCommunityFile ts2 oc fd)).tail
      ∧ (splitNl (generateCommunityFile ts1 oc fd)).head?
        = some (("# Community Configuration Generated on ").data ++ ts1)
      ∧ (splitNl (generateCommunityFile ts2 oc fd)).head?
        = some (("# Community Configuration Generated on ").data ++ ts2) := by
  have key : ∀ ts : Str, ('\n') ∉ ts →
      splitNl (generateCommunityFile ts oc fd)
        = (("# Community Configuration Generated on ").data ++ ts)
            :: splitNl (afterHeader oc fd) := by
    intro ts hts
    rw [generateCommunityFile_head_decompose]
    apply splitNl_line_append
    intro hm
    rcases List.mem_append.mp hm with h' | h'
    · exact absurd h' (by decide)
    · exact hts h'
  rw [key ts1 h1, key ts2 h2]
  exact ⟨rfl, rfl, rfl⟩

/-- C8 witness: two concrete timestamps give identical tails. -/
theorem generateCommunityFile_deterministic_witness :
    (splitNl (generateCommunityFile (("2024-01-01T00:00:00.000Z").data)
          (("a\nb").data) ⟨("A").data, ("1").data, ("m").data, ("o").data⟩)).tail
        = (splitNl (generateCommunityFile (("2025-02-02T11:22:33.444Z").data)
            (("a\nb").data) ⟨("A").data, ("1").data, ("m").data, ("o").data⟩)).tail
      ∧ (splitNl (generateCommunityFile (("2024-01-01T00:00:00.000Z").data)
            (("a\nb").data) ⟨("A").data, ("1").data, ("m").data, ("o").data⟩)).head?
        = some (("# Community Configuration Generated on ").data
            ++ ("2024-01-01T00:00:00.000Z").data)
      ∧ (splitNl (generateCommunityFile (("2025-02-02T11:22:33.444Z").data)
            (("a\nb").data) ⟨("A").data, ("1").data, ("m").data, ("o").data⟩)).head?
        = some (("# Community Configuration Generated on ").data
            ++ ("2025-02-02T11:22:33.444Z").data) :=
  generateCommunityFile_deterministic (("2024-01-01T00:00:00.000Z").data)
    (("2025-02-02T11:22:33.444Z").data) (("a\nb").data)
    ⟨("A").data, ("1").data, ("m").data, ("o").data⟩ (by decide) (by decide)

/-! ## Whitespace-only content (C10) -/

theorem parseCreateCommunity_ok (r rf cm ou tc : Str)
    (h1 : r ≠ []) (h2 : rf ≠ []) (h3 : cm ≠ []) (h4 : ou ≠ []) (h5 : tc ≠ []) :
    parseCreateCommunity ⟨some r, some rf, some cm, some ou, some tc⟩
      = Except.ok ⟨r, rf, cm, ou, tc⟩ := by
  unfold parseCreateCommunity
  simp [reqChecks, checkReq, h1, h2, h3, h4, h5]

theorem retained_nil_of_space (tc : Str) (h : ∀ c ∈ tc, isJsSpace c = true) :
    (splitNl tc).filter trimNonEmpty = [] := by
  rw [List.filter_eq_nil_iff]
  intro l hl
  simp only [Bool.not_eq_true, trimNonEmpty]
  rw [List.any_eq_false]
  intro c hc
  have hcs := h c (mem_of_mem_splitNl tc l hl c hc)
  simp [hcs]

/-- C10 (amended): a whitespace-only, non-empty `textContent` passes
validation, the submission runs the full pipeline to a 200 response, and
— provided the metadata and timestamp contain no newline — the generated
report has zero numbered-form lines and its summary line reports 0. -/
theorem whitespace_content_pipeline (env : Env) (now : Str) (s : MemStorage)
    (r rf cm ou tc u : Str)
    (h1 : r ≠ []) (h2 : rf ≠ []) (h3 : cm ≠ []) (h4 : ou ≠ [])
    (h5 : tc ≠ []) (hsp : ∀ c ∈ tc, isJsSpace c = true)
    (hu : env.webhookUrl = some u)
    (hn : ('\n') ∉ now) (hr : ('\n') ∉ r) (hrf : ('\n') ∉ rf)
    (hcm : ('\n') ∉ cm) (hou : ('\n') ∉ ou) :
    parseCreateCommunity ⟨some r, some rf, some cm, some ou, some tc⟩
        = Except.ok ⟨r, rf, cm, ou, tc⟩
      ∧ (postCommunities env WebhookResult.ok now s
          ⟨some r, some rf, some cm, some ou, some tc⟩).response.status = 200
      ∧ (splitNl (generateCommunityFile now tc ⟨r, rf, cm, ou⟩)).filter
          isNumberedLine = []
      ∧ ∃ front, splitNl (generateCommunityFile now tc ⟨r, rf, cm, ou⟩)
          = front ++ [("# Total Communities: ").data ++ natToStr 0, []] := by
  have hok := parseCreateCommunity_ok r rf cm ou tc h1 h2 h3 h4 h5
  have hret := retained_nil_of_space tc hsp
  have hs := generateCommunityFile_splitNl now tc ⟨r, rf, cm, ou⟩ hn hr hrf hcm hou
  refine ⟨hok, ?_, ?_, ?_⟩
  · rw [postCommunities_success env WebhookResult.ok now s _ ⟨r, rf, cm, ou, tc⟩ u
      hok hu rfl]
  · rw [hs, filter_isNumberedLine_fileLines now tc ⟨r, rf, cm, ou⟩, hret]
    rfl
  · refine ⟨[("# Community Configuration Generated on ").data ++ now,
        ("# Rename: ").data ++ r,
        ("# Robux Fund: ").data ++ rf,
        ("# Communities Member: ").data ++ cm,
        ("# Owner Username: ").data ++ ou,
        [], ("# Original Communities Data:").data,
        [], ("# Processing Complete").data], ?_⟩
    rw [hs]
    simp [fileLines, hret, numberedEntriesFrom]

/-- C10 witness: a single-space `textContent` runs the pipeline to 200 and
yields a report with zero numbered lines and summary 0. -/
theorem whitespace_content_pipeline_witness :
    parseCreateCommunity ⟨some ("Alpha").data, some ("100").data, some ("m1").data,
          some ("o1").data, some (" ").data⟩
        = Except.ok ⟨("Alpha").data, ("100").data, ("m1").data, ("o1").data,
            (" ").data⟩
      ∧ (postCommunities cexEnv WebhookResult.ok ("TS").data initialStorage
          ⟨some ("Alpha").data, some ("100").data, some ("m1").data,
            some ("o1").data, some (" ").data⟩).response.status = 200
      ∧ (splitNl (generateCommunityFile ("TS").data (" ").data
          ⟨("Alpha").data, ("100").data, ("m1").data, ("o1").data⟩)).filter
          isNumberedLine = []
      ∧ ∃ front, splitNl (generateCommunityFile ("TS").data (" ").data
            ⟨("Alpha").data, ("100").data, ("m1").data, ("o1").data⟩)
          = front ++ [("# Total Communities: ").data ++ natToStr 0, []] :=
  whitespace_content_pipeline cexEnv ("TS").data initialStorage
    ("Alpha").data ("100").data ("m1").data ("o1").data (" ").data
    (("https://discord.com/api/webhooks/1").data)
    (by decide) (by decide) (by decide) (by decide) (by decide) (by decide) rfl
    (by decide) (by decide) (by decide) (by decide) (by decide)

/-- C10 counterexample: with whitespace-only content but a `rename`
embedding `"\n1. fake"`, validation passes and the pipeline answers 200,
yet the persisted report contains one numbered-form line, not zero. -/
theorem whitespace_content_cex :
    (postCommunities cexEnv WebhookResult.ok ("TS").data initialStorage
        ⟨some ("x\n1. fake").data, some ("100").data, some ("m1").data,
          some ("o1").data, some (" ").data⟩).response.status = 200
      ∧ ∀ c ∈ getAllCommunities (postCommunities cexEnv WebhookResult.ok
          ("TS").data initialStorage
          ⟨some ("x\n1. fake").data, some ("100").data, some ("m1").data,
            some ("o1").data, some (" ").data⟩).store,
          ((splitNl c.generatedContent).filter isNumberedLine).length = 1 := by
  decide

/-! ## The webhook-URL validation claim (C6) -/

theorem discordWebhookIssues_mem (u : Str)
    (hc : containsSub discordPathSeg u = false) :
    ∃ i ∈ discordWebhookIssues (some u), i.path = ("discordWebhook").data := by
  unfold discordWebhookIssues
  by_cases hw : isWebUrl u <;> simp [hw, hc]

theorem parseCreateCommunityW_error (b : BodyW) (hne : reqChecksW b ≠ []) :
    parseCreateCommunityW b = Except.error (reqChecksW b) := by
  rcases b with ⟨r, rf, cm, ou, dw, fc, fn⟩
  rcases r with _ | r <;> rcases rf with _ | rf <;> rcases cm with _ | cm <;>
    rcases ou with _ | ou <;> rcases dw with _ | dw <;> rcases fc with _ | fc <;>
    rcases fn with _ | fn <;>
    simp_all [parseCreateCommunityW, List.isEmpty_iff]

/-- C6 (amended): every URL whose host path is in the Discord webhook
namespace passes the `discordWebhook` check, and every submission whose
`discordWebhook` does not contain the substring
`discord.com/api/webhooks` is rejected by validation with an error entry
naming `discordWebhook` — but acceptance is a substring test, not a
host-path test (see the counterexample). -/
theorem discordWebhook_validation :
    (∀ u : Str, hostPathInDiscordNamespace u = true →
        discordWebhookIssues (some u) = [])
      ∧ (∀ (b : BodyW) (u : Str), b.discordWebhook = some u →
          containsSub discordPathSeg u = false →
          ∃ es, parseCreateCommunityW b = Except.error es
            ∧ ∃ i ∈ es, i.path = ("discordWebhook").data) := by
  constructor
  · intro u hu
    unfold hostPathInDiscordNamespace at hu
    rw [Bool.or_eq_true] at hu
    have hweb : isWebUrl u = true := by
      unfold isWebUrl
      rw [Bool.or_eq_true]
      rcases hu with h | h
      · left
        rw [Bool.and_eq_true]
        refine ⟨leadsWith_mono u h, ?_⟩
        have hlen := leadsWith_length h
        have : ((("https://").data ++ discordPathSeg)).length = 32 := by decide
        rw [this] at hlen
        simp only [decide_eq_true_eq]
        omega
      · right
        rw [Bool.and_eq_true]
        refine ⟨leadsWith_mono u h, ?_⟩
        have hlen := leadsWith_length h
        have : ((("http://").data ++ discordPathSeg)).length = 31 := by decide
        rw [this] at hlen
        simp only [decide_eq_true_eq]
        omega
    have hcon : containsSub discordPathSeg u = true := by
      rcases hu with h | h
      · obtain ⟨r, hr⟩ := leadsWith_iff_append h
        rw [hr, List.append_assoc]
        exact containsSub_append _ _ _
      · obtain ⟨r, hr⟩ := leadsWith_iff_append h
        rw [hr, List.append_assoc]
        exact containsSub_append _ _ _
    simp [discordWebhookIssues, hweb, hcon]
  · intro b u hb hc
    obtain ⟨i, hi, hp⟩ := discordWebhookIssues_mem u hc
    have hmem : i ∈ reqChecksW b := by
      unfold reqChecksW
      rw [hb]
      simp only [List.mem_append]
      tauto
    have hne : reqChecksW b ≠ [] := by
      intro h0
      rw [h0] at hmem
      simp at hmem
    exact ⟨reqChecksW b, parseCreateCommunityW_error b hne, i, hmem, hp⟩

/-- C6 (amended) witness: a genuine Discord webhook URL passes the check,
and a concrete submission whose URL lacks the substring is rejected with a
`discordWebhook` error entry. -/
theorem discordWebhook_validation_witness :
    discordWebhookIssues (some (("https://discord.com/api/webhooks/5/tok").data)) = []
      ∧ ∃ es, parseCreateCommunityW ⟨some ("A").data, some ("f").data,
            some ("m").data, some ("o").data,
            some (("https://example.com/hook").data), some ("c").data,
            some ("n").data⟩
          = Except.error es ∧ ∃ i ∈ es, i.path = ("discordWebhook").data :=
  ⟨discordWebhook_validation.1 (("https://discord.com/api/webhooks/5/tok").data)
      (by decide),
    discordWebhook_validation.2
      ⟨some ("A").data, some ("f").data, some ("m").data, some ("o").data,
        some (("https://example.com/hook").data), some ("c").data, some ("n").data⟩
      (("https://example.com/hook").data) rfl (by decide)⟩

/-- C6 counterexample: `https://evil.example/discord.com/api/webhooks` is
accepted by the code's check (valid URL containing the substring) and the
whole submission validates, although its host path is not in the Discord
webhook namespace — so "only URLs whose host path is in that namespace are
accepted" is false. -/
theorem discordWebhook_namespace_cex :
    discordWebhookIssues
        (some (("https://evil.example/discord.com/api/webhooks").data)) = []
      ∧ hostPathInDiscordNamespace
          (("https://evil.example/discord.com/api/webhooks").data) = false
      ∧ parseCreateCommunityW ⟨some ("A").data, some ("f").data, some ("m").data,
            some ("o").data,
            some (("https://evil.example/discord.com/api/webhooks").data),
            some ("c").data, some ("n").data⟩
        = Except.ok ⟨("A").data, ("f").data, ("m").data, ("o").data,
            ("https://evil.example/discord.com/api/webhooks").data,
            ("c").data, ("n").data⟩ :=
  ⟨by decide, by decide, rfl⟩

end TextTransfer
